import Mathlib

/-!
Verification development for the credential & validation subsystem of the
`backend-boilerplate` repository (NestJS/TypeScript).

The TypeScript sources are shallowly embedded as executable Lean definitions.
JavaScript numbers are modelled exactly (as rationals extended with `NaN` and
the two infinities); IEEE-754 rounding is not modelled, which does not affect
any of the concrete inputs appearing below.  Strings are modelled as Lean
strings; the character classes of the JS regexes involved are ASCII, matching
the source patterns.  All string functions are written directly on the
underlying character lists so that they reduce inside the kernel.
-/

/-- The value space of a JavaScript `number`: `NaN`, the two infinities, or a
finite value (modelled as an exact rational). -/
inductive JSNumber where
  | nan
  | posInf
  | negInf
  | finite (q : ℚ)
  deriving DecidableEq

namespace JSNumber

/-- JS `isNaN` on an already-coerced number. -/
def isNaNb : JSNumber → Bool
  | nan => true
  | _ => false

/-- JS `<` on numbers; every comparison involving `NaN` is false. -/
def ltb : JSNumber → JSNumber → Bool
  | nan, _ => false
  | _, nan => false
  | posInf, _ => false
  | negInf, negInf => false
  | negInf, _ => true
  | finite _, posInf => true
  | finite _, negInf => false
  | finite a, finite b => decide (a < b)

/-- JS `Number.isInteger`: true exactly on finite values with no fractional
part (`NaN` and the infinities are not integers). -/
def isIntegerb : JSNumber → Bool
  | finite q => decide (q.den = 1)
  | _ => false

end JSNumber

/-- The whitespace characters trimmed by the ECMAScript string-to-number
coercion (the common ASCII ones plus NBSP; further exotic Unicode space
code points are not modelled). -/
def jsWhitespace (c : Char) : Bool :=
  c = ' ' || c = '\t' || c = '\n' || c = '\r' || c = '\x0b' || c = '\x0c' || c = ' '

/-- Decimal digit value of a character, if any. -/
def digitVal (c : Char) : Option ℕ :=
  if '0' ≤ c ∧ c ≤ '9' then some (c.toNat - '0'.toNat) else none

/-- Hexadecimal digit value of a character, if any. -/
def hexVal (c : Char) : Option ℕ :=
  if '0' ≤ c ∧ c ≤ '9' then some (c.toNat - '0'.toNat)
  else if 'a' ≤ c ∧ c ≤ 'f' then some (c.toNat - 'a'.toNat + 10)
  else if 'A' ≤ c ∧ c ≤ 'F' then some (c.toNat - 'A'.toNat + 10)
  else none

/-- Octal digit value of a character, if any. -/
def octVal (c : Char) : Option ℕ :=
  if '0' ≤ c ∧ c ≤ '7' then some (c.toNat - '0'.toNat) else none

/-- Binary digit value of a character, if any. -/
def binVal (c : Char) : Option ℕ :=
  if c = '0' then some 0 else if c = '1' then some 1 else none

/-- Consume the longest prefix of digits (w.r.t. digit reader `dig` and base
`base`), returning the accumulated value, the number of digits consumed, and
the rest of the input. -/
def takeDigits (base : ℕ) (dig : Char → Option ℕ) : List Char → ℕ → ℕ → ℕ × ℕ × List Char
  | [], acc, count => (acc, count, [])
  | c :: cs, acc, count =>
    match dig c with
    | some d => takeDigits base dig cs (acc * base + d) (count + 1)
    | none => (acc, count, c :: cs)

/-- Parse the exponent that follows an `e`/`E`: an optional sign and at least
one decimal digit, consuming the entire remaining input. -/
def parseExponent (cs : List Char) : Option ℤ :=
  let signAndRest : ℤ × List Char :=
    match cs with
    | '+' :: t => (1, t)
    | '-' :: t => (-1, t)
    | _ => (1, cs)
  let p := takeDigits 10 digitVal signAndRest.2 0 0
  if p.2.1 = 0 ∨ p.2.2 ≠ [] then none else some (signAndRest.1 * p.1)

/-- Build the rational `sign * (num / den) * 10 ^ e` using only integer
arithmetic and `mkRat` (which the kernel evaluates). -/
def buildRat (sign : ℤ) (num : ℕ) (den : ℕ) (e : ℤ) : ℚ :=
  if 0 ≤ e then mkRat (sign * (num * 10 ^ e.toNat : ℕ)) den
  else mkRat (sign * (num : ℕ)) (den * 10 ^ (-e).toNat)

/-- Parse an unsigned ECMAScript decimal literal
`DecimalDigits [. DecimalDigits] [ExponentPart]` (also allowing the
`. DecimalDigits` form), consuming the entire input.  The result is returned
as mantissa numerator/denominator and exponent, to be assembled by
`buildRat`. -/
def parseUnsignedDecimal (cs : List Char) : Option (ℕ × ℕ × ℤ) :=
  let ip := takeDigits 10 digitVal cs 0 0
  let fracAndRest : ℕ × ℕ × List Char :=
    match ip.2.2 with
    | '.' :: t => takeDigits 10 digitVal t 0 0
    | _ => (0, 0, ip.2.2)
  if ip.2.1 = 0 ∧ fracAndRest.2.1 = 0 then none
  else
    let num : ℕ := ip.1 * 10 ^ fracAndRest.2.1 + fracAndRest.1
    let den : ℕ := 10 ^ fracAndRest.2.1
    match fracAndRest.2.2 with
    | [] => some (num, den, 0)
    | 'e' :: t => (parseExponent t).map (fun e => (num, den, e))
    | 'E' :: t => (parseExponent t).map (fun e => (num, den, e))
    | _ => none

/-- Parse an ECMAScript non-decimal integer literal (`0x…`, `0o…`, `0b…`),
which admits no sign, consuming the entire input. -/
def parseNonDecimal (cs : List Char) : Option ℚ :=
  match cs with
  | '0' :: x :: t =>
    if x = 'x' ∨ x = 'X' then
      let p := takeDigits 16 hexVal t 0 0
      if p.2.1 = 0 ∨ p.2.2 ≠ [] then none else some (mkRat p.1 1)
    else if x = 'o' ∨ x = 'O' then
      let p := takeDigits 8 octVal t 0 0
      if p.2.1 = 0 ∨ p.2.2 ≠ [] then none else some (mkRat p.1 1)
    else if x = 'b' ∨ x = 'B' then
      let p := takeDigits 2 binVal t 0 0
      if p.2.1 = 0 ∨ p.2.2 ≠ [] then none else some (mkRat p.1 1)
    else none
  | _ => none

/-- Trim JS whitespace from both ends of a character list. -/
def jsTrimChars (cs : List Char) : List Char :=
  ((cs.dropWhile jsWhitespace).reverse.dropWhile jsWhitespace).reverse

/-- Model of the ECMAScript `Number(string)` coercion (`ToNumber` applied to a
string): trim whitespace, map the empty string to `0`, recognise signed
`Infinity`, non-decimal integer literals and signed decimal literals, and
produce `NaN` otherwise.  Values are exact rationals (no IEEE-754 rounding). -/
def jsToNumber (s : String) : JSNumber :=
  let cs := jsTrimChars s.data
  match cs with
  | [] => .finite 0
  | _ :: _ =>
    match parseNonDecimal cs with
    | some q => .finite q
    | none =>
      let signAndRest : ℤ × List Char :=
        match cs with
        | '+' :: t => (1, t)
        | '-' :: t => (-1, t)
        | _ => (1, cs)
      if signAndRest.2 = "Infinity".data then
        (if signAndRest.1 = 1 then .posInf else .negInf)
      else
        match parseUnsignedDecimal signAndRest.2 with
        | some m => .finite (buildRat signAndRest.1 m.1 m.2.1 m.2.2)
        | none => .nan

/-- The two-shape validation outcome used by every validator in
`src/common/validators` (`ValidationResult` from `models.ts`). -/
structure ValidationResult where
  isValid : Bool
  message : Option String := none
  deriving DecidableEq

/-- `validateId` from `src/common/validators/user.utils.ts` (lines 91-102):
coerce with `Number` and reject when the result is `NaN` or below `1`. -/
def validateId (id : String) : ValidationResult :=
  let numericId := jsToNumber id
  if numericId.isNaNb || numericId.ltb (.finite 1) then
    { isValid := false, message := some "Invalid user ID format" }
  else
    { isValid := true }

/-- `validatePagination` from `src/common/validators/pagination.utils.ts`:
the page check runs first and short-circuits the limit check. -/
def validatePagination (page limit : String) : ValidationResult :=
  let pageNum := jsToNumber page
  let limitNum := jsToNumber limit
  if pageNum.isNaNb || pageNum.ltb (.finite 1) || !pageNum.isIntegerb then
    { isValid := false, message := some "Page must be a positive integer" }
  else if limitNum.isNaNb || limitNum.ltb (.finite 1) ||
      (JSNumber.finite 1000).ltb limitNum || !limitNum.isIntegerb then
    { isValid := false, message := some "Limit must be an integer between 1 and 1000" }
  else
    { isValid := true }

/-- Whether some character of the list satisfies the predicate (the JS
regex `test` for a single character class). -/
def anyChar (pred : Char → Bool) : List Char → Bool
  | [] => false
  | c :: cs => pred c || anyChar pred cs

/-- Character class of the JS regex `[A-Z]`. -/
def isAsciiUpper (c : Char) : Bool := 'A' ≤ c && c ≤ 'Z'

/-- Character class of the JS regex `[a-z]`. -/
def isAsciiLower (c : Char) : Bool := 'a' ≤ c && c ≤ 'z'

/-- Character class of the JS regex `[0-9]`. -/
def isAsciiDigit (c : Char) : Bool := '0' ≤ c && c ≤ '9'

/-- `validatePasswordComplexity` from `src/common/validators/user.utils.ts`
(lines 36-66): length, uppercase, lowercase, digit — in that order. -/
def validatePasswordComplexity (password : String) : ValidationResult :=
  if password.data.length < 8 then
    { isValid := false, message := some "Password must be at least 8 characters long" }
  else if !(anyChar isAsciiUpper password.data) then
    { isValid := false, message := some "Password must contain at least one uppercase letter" }
  else if !(anyChar isAsciiLower password.data) then
    { isValid := false, message := some "Password must contain at least one lowercase letter" }
  else if !(anyChar isAsciiDigit password.data) then
    { isValid := false, message := some "Password must contain at least one number" }
  else
    { isValid := true }

/-- ASCII upper-casing of a character, as JS `toUpperCase` acts on the role
strings at hand (the roles involved are ASCII). -/
def asciiUpperChar (c : Char) : Char :=
  if 'a' ≤ c ∧ c ≤ 'z' then Char.ofNat (c.toNat - 32) else c

/-- ASCII model of JS `String.prototype.toUpperCase`. -/
def jsToUpperCase (s : String) : String := ⟨s.data.map asciiUpperChar⟩

/-- The `validRoles` list of `validateRole` (source order). -/
def validRoles : List String := ["ADMIN", "STUDENT", "TEACHER", "STAFF", "GUEST"]

/-- JS `Array.prototype.join` with a separator. -/
def joinSep (sep : String) : List String → String
  | [] => ""
  | [x] => x
  | x :: y :: xs => x ++ sep ++ joinSep sep (y :: xs)

/-- `validateRole` from `src/common/validators/user.utils.ts` (lines 73-84):
upper-case the input and test membership in `validRoles`. -/
def validateRole (role : String) : ValidationResult :=
  if !(validRoles.contains (jsToUpperCase role)) then
    { isValid := false,
      message := some ("Invalid role. Must be one of: " ++ joinSep ", " validRoles) }
  else
    { isValid := true }

/-- A JavaScript value as far as the validators observe it. -/
inductive JsValue where
  | undef
  | jsNull
  | str (s : String)
  | num (n : JSNumber)
  | boolean (b : Bool)
  | obj
  deriving DecidableEq

/-- JS truthiness: `undefined`, `null`, `""`, `0`, `NaN` and `false` are
falsy; everything else is truthy. -/
def isTruthy : JsValue → Bool
  | .undef => false
  | .jsNull => false
  | .str s => !(s == "")
  | .num .nan => false
  | .num (.finite q) => !(q == 0)
  | .num _ => true
  | .boolean b => b
  | .obj => true

/-- `validateRequiredFields` from `src/common/validators/user.utils.ts`
(lines 109-122): a field counts as missing when its value is falsy
(`!value`); the missing names are joined with " and " in input order. -/
def validateRequiredFields (fields : List (String × JsValue)) : ValidationResult :=
  let missingFields := (fields.filter (fun kv => !(isTruthy kv.2))).map Prod.fst
  if missingFields.length > 0 then
    { isValid := false,
      message := some (joinSep " and " missingFields ++ " " ++
        (if missingFields.length = 1 then "is" else "are") ++ " required") }
  else
    { isValid := true }

/-- The missing-field criterion as the specification words it: a value is
missing exactly when it is `undefined`, `null`, or the empty string. -/
def specMissing : JsValue → Bool
  | .undef => true
  | .jsNull => true
  | .str s => s == ""
  | _ => false

/-- Required-fields validation following the specification's words, for
comparison with the implementation: identical message shape but with
`specMissing` as the missing-field criterion. -/
def specValidateRequiredFields (fields : List (String × JsValue)) : ValidationResult :=
  let missingFields := (fields.filter (fun kv => specMissing kv.2)).map Prod.fst
  if missingFields.length > 0 then
    { isValid := false,
      message := some (joinSep " and " missingFields ++ " " ++
        (if missingFields.length = 1 then "is" else "are") ++ " required") }
  else
    { isValid := true }

/-- Character class of `[^\s@]` in the email regex (ASCII model of `\s`
plus NBSP, via `jsWhitespace`). -/
def emailClassChar (c : Char) : Bool := !(jsWhitespace c) && c ≠ '@'

/-- The test of the JS regex `^[^\s@]+@[^\s@]+\.[^\s@]+$` used by
`validateEmail`: exactly one `@`, a nonempty all-class local part, and an
all-class domain containing a dot that is neither its first nor its last
character (the class admits dots, so further dots may appear anywhere). -/
def emailRegexTest (s : String) : Bool :=
  let cs := s.data
  let localPart := cs.takeWhile (fun c => c ≠ '@')
  let domain := (cs.dropWhile (fun c => c ≠ '@')).drop 1
  decide (cs.count '@' = 1) && !localPart.isEmpty && localPart.all emailClassChar &&
    !domain.isEmpty && domain.all emailClassChar && (domain.drop 1).dropLast.contains '.'

/-- `validateEmail` from `src/common/validators/user.utils.ts` (lines 12-23). -/
def validateEmail (email : String) : ValidationResult :=
  if !emailRegexTest email then
    { isValid := false, message := some "Invalid email format" }
  else
    { isValid := true }

/-- The claim set carried by a verified token (`sub`, `email`, `role`). -/
structure JwtPayload where
  sub : ℤ
  email : String
  role : String
  deriving DecidableEq

/-- Outcome of the Access Guard: an `UnauthorizedException` with a message,
or acceptance with the decoded payload attached to the request. -/
inductive GuardResult where
  | rejected (message : String)
  | authenticated (payload : JwtPayload)
  deriving DecidableEq

/-- Whether the first list is an initial segment of the second. -/
def leadingMatches : List Char → List Char → Bool
  | [], _ => true
  | _ :: _, [] => false
  | a :: as, b :: bs => a = b && leadingMatches as bs

/-- JS `authHeader.startsWith("Bearer ")` — exact, case-sensitive. -/
def startsWithBearer (h : String) : Bool := leadingMatches "Bearer ".data h.data

/-- The token-extraction expression of `AuthGuard.canActivate`:
`authHeader.startsWith('Bearer ') ? authHeader.slice(7) : authHeader`. -/
def stripBearer (h : String) : String :=
  if startsWithBearer h then ⟨h.data.drop 7⟩ else h

/-- `AuthGuard.canActivate` from `src/common/guards/auth.guard.ts`.  The
header is `none` when absent; JS `!authHeader` is also true for a present
empty-string header, so that case takes the same branch.  `verify` abstracts
`jwtService.verifyAsync` (`none` means verification threw, for any reason). -/
def canActivate (verify : String → Option JwtPayload) (authHeader : Option String) :
    GuardResult :=
  match authHeader with
  | none => .rejected "Authorization header is missing"
  | some h =>
    if h = "" then .rejected "Authorization header is missing"
    else
      let token := stripBearer h
      if token = "" then .rejected "Token is missing"
      else
        match verify token with
        | some payload => .authenticated payload
        | none => .rejected "Invalid or expired token"

/-- The Access Guard state machine exactly as the specification words it
(§4.4): absent header rejects as missing header; a present header is
stripped, an empty stripped value rejects as missing token; otherwise the
Token Service decides. -/
def specGuard (verify : String → Option JwtPayload) (authHeader : Option String) :
    GuardResult :=
  match authHeader with
  | none => .rejected "Authorization header is missing"
  | some h =>
    let token := stripBearer h
    if token = "" then .rejected "Token is missing"
    else
      match verify token with
      | some payload => .authenticated payload
      | none => .rejected "Invalid or expired token"

/-- A thrown JS value as `AllExceptionsFilter` inspects it: an `Error`
instance (with `message` and `stack`) or any other thrown value. -/
inductive JsException where
  | errorObj (message : String) (stack : String)
  | nonError
  deriving DecidableEq

/-- A caller-visible error body produced by the exception filter.  The
`timestamp` field (wall-clock time) is not modelled. -/
structure ErrorResponse where
  statusCode : ℕ
  message : String
  error : String
  path : String
  deriving DecidableEq

/-- One call to the logging collaborator: the logged text and the optional
second argument (a stack trace). -/
structure LogEntry where
  text : String
  stack : Option String := none
  deriving DecidableEq

/-- `AllExceptionsFilter.catch` from
`src/common/errors/all-exceptions.filter.ts` (lines 8-30): the status is
always 500 and the `error` field is always "Internal Server Error"; for an
`Error` instance the exception's own `message` is placed in the response
body and its stack is handed to the logger; for any other thrown value the
generic message is kept. -/
def allExceptionsFilterCatch (exception : JsException) (path : String) :
    ErrorResponse × List LogEntry :=
  match exception with
  | .errorObj msg stack =>
    ({ statusCode := 500, message := msg, error := "Internal Server Error", path := path },
      [{ text := "Exception: " ++ msg, stack := some stack }])
  | .nonError =>
    ({ statusCode := 500, message := "Internal Server Error",
       error := "Internal Server Error", path := path },
      [{ text := "Unknown exception:" }])

/-- The message built by the `UserNotFoundException` constructor
(`src/common/errors/user-not-found.exception.ts`): the optional argument is
interpolated when truthy (`none` and the empty string give the generic
form). -/
def userNotFoundMessage (userId : Option String) : String :=
  "User" ++
    (match userId with
     | some s => if s = "" then "" else " with ID " ++ s
     | none => "") ++ " not found"

/-- A stored user record (prisma `User` model). -/
structure UserRec where
  id : ℤ
  email : String
  name : Option String
  password : String
  role : String
  deriving DecidableEq

/-- A user record with the password destructured away
(`const password, ...result = user`). -/
structure UserView where
  id : ℤ
  email : String
  name : Option String
  role : String
  deriving DecidableEq

/-- Drop the password field from a record. -/
def removePassword (u : UserRec) : UserView :=
  { id := u.id, email := u.email, name := u.name, role := u.role }

/-- The HTTP exceptions thrown by the controllers. -/
inductive ApiError where
  | badRequest (message : String)
  | notFound (message : String)
  | internalServerError (message : String)
  deriving DecidableEq

/-- The record store's `findOneById` (backed by `prisma.user.findUnique`):
the first record whose id equals the coerced lookup key. -/
def findOneById (store : List UserRec) (key : JSNumber) : Option UserRec :=
  store.find? (fun u =>
    match key with
    | .finite q => decide ((u.id : ℚ) = q)
    | _ => false)

/-- `UsersController.findOne` from `src/users/users.controller.ts`
(lines 198-225): validate the id parameter, look the user up, and either
return the record without its password or throw `UserNotFoundException(id)`. -/
def findOne (store : List UserRec) (id : String) : Except ApiError UserView :=
  let idValidation := validateId id
  if !idValidation.isValid then
    .error (.badRequest (idValidation.message.getD ""))
  else
    match findOneById store (jsToNumber id) with
    | none => .error (.notFound (userNotFoundMessage (some id)))
    | some user => .ok (removePassword user)

/-- `UsersController.delete` from `src/users/users.controller.ts`
(lines 239-266): identical id validation and existence check; the deletion
itself (`usersService.delete`) is modelled as filtering the record out. -/
def deleteUser (store : List UserRec) (id : String) :
    Except ApiError (String × List UserRec) :=
  let idValidation := validateId id
  if !idValidation.isValid then
    .error (.badRequest (idValidation.message.getD ""))
  else
    match findOneById store (jsToNumber id) with
    | none => .error (.notFound (userNotFoundMessage (some id)))
    | some _ =>
      .ok ("User deleted successfully",
        store.filter (fun u =>
          match jsToNumber id with
          | .finite q => !(decide ((u.id : ℚ) = q))
          | _ => true))

/-- ASCII lower-casing of a character (JS `toLowerCase` on the inputs at
hand). -/
def asciiLowerChar (c : Char) : Char :=
  if 'A' ≤ c ∧ c ≤ 'Z' then Char.ofNat (c.toNat + 32) else c

/-- ASCII model of JS `String.prototype.toLowerCase`. -/
def jsToLowerCase (s : String) : String := ⟨s.data.map asciiLowerChar⟩

/-- JS `String.prototype.trim`. -/
def jsTrim (s : String) : String := ⟨jsTrimChars s.data⟩

/-- The registration request body (`email` and `password` are typed as
strings by the controller; `name` and `role` are optional). -/
structure RegisterBody where
  email : String
  name : Option String
  password : String
  role : Option String
  deriving DecidableEq

/-- Modelled from the spec: `users.service.ts` is not under `src/` (only its
unit test and its callers are).  Following the spec: per §6 the registration
path hashes the credential and stores the submitted fields; per §3 (Role)
"canonical storage is upper-case" with "Default on creation: GUEST", so the
service canonicalizes the role to upper-case and defaults to GUEST when no
truthy role is supplied (consistent with the documented Prisma `Role` enum,
which admits only the five upper-case members).  `hashFn` abstracts
`bcrypt.hash(_, 10)` and `newId` the store's autoincremented key. -/
def usersServiceCreate (hashFn : String → String) (newId : ℤ) (email : String)
    (name : Option String) (password : String) (role : Option String) : UserRec :=
  { id := newId, email := email, name := name, password := hashFn password,
    role :=
      match role with
      | some r => if r = "" then "GUEST" else jsToUpperCase r
      | none => "GUEST" }

/-- `UsersController.create` from `src/users/users.controller.ts`
(lines 67-131): required-fields check on email/password, email normalisation
and format check, password complexity check, role membership check only when
a truthy role is supplied, then creation; the body's `role` is forwarded to
the service verbatim (`...body`). -/
def registerUser (hashFn : String → String) (newId : ℤ) (body : RegisterBody) :
    Except ApiError UserView :=
  let requiredFieldsValidation := validateRequiredFields
    [("email", .str body.email), ("password", .str body.password)]
  if !requiredFieldsValidation.isValid then
    .error (.badRequest (requiredFieldsValidation.message.getD ""))
  else
    let email := jsToLowerCase (jsTrim body.email)
    let emailValidation := validateEmail email
    if !emailValidation.isValid then
      .error (.badRequest (emailValidation.message.getD ""))
    else
      let passwordValidation := validatePasswordComplexity body.password
      if !passwordValidation.isValid then
        .error (.badRequest (passwordValidation.message.getD ""))
      else
        match body.role with
        | some r =>
          if !(r == "") && !(validateRole r).isValid then
            .error (.badRequest ((validateRole r).message.getD ""))
          else
            .ok (removePassword
              (usersServiceCreate hashFn newId email body.name body.password (some r)))
        | none =>
          .ok (removePassword
            (usersServiceCreate hashFn newId email body.name body.password none))

/-- The raw environment as `ConfigModule` hands it to `validate`. -/
structure EnvConfig where
  DATABASE_URL : Option String
  JWT_SECRET : Option String
  JWT_EXPIRES_IN : Option String
  NODE_ENV : Option String
  deriving DecidableEq

/-- The validated environment (`z.infer<typeof envSchema>`), defaults
applied. -/
structure Environment where
  DATABASE_URL : String
  JWT_SECRET : String
  JWT_EXPIRES_IN : String
  NODE_ENV : String
  deriving DecidableEq

/-- The issues found by `envSchema.safeParse` (`src/app.module.ts` lines
10-15): `DATABASE_URL` present and nonempty, `JWT_SECRET` present with at
least 32 characters, `NODE_ENV` restricted to its three-member enum when
present, `JWT_EXPIRES_IN` unconstrained.  Issue texts approximate Zod's
rendering; nothing below depends on them beyond emptiness of this list. -/
def envIssues (c : EnvConfig) : List String :=
  (match c.DATABASE_URL with
   | none => ["DATABASE_URL: Required"]
   | some s => if s.data.length < 1 then ["DATABASE_URL: DATABASE_URL is required"] else []) ++
  (match c.JWT_SECRET with
   | none => ["JWT_SECRET: Required"]
   | some s =>
     if s.data.length < 32 then ["JWT_SECRET: JWT_SECRET must be at least 32 characters"]
     else []) ++
  (match c.NODE_ENV with
   | none => []
   | some s =>
     if s = "development" ∨ s = "production" ∨ s = "test" then []
     else ["NODE_ENV: Invalid enum value"])

/-- The `validate` wrapper (`src/app.module.ts` lines 19-28): throw (modelled
as `.error`) when parsing fails — this aborts startup — and otherwise return
the parsed data with defaults applied. -/
def envValidate (c : EnvConfig) : Except String Environment :=
  match envIssues c with
  | [] =>
    .ok { DATABASE_URL := c.DATABASE_URL.getD "",
          JWT_SECRET := c.JWT_SECRET.getD "",
          JWT_EXPIRES_IN := c.JWT_EXPIRES_IN.getD "7d",
          NODE_ENV := c.NODE_ENV.getD "development" }
  | issues => .error ("Environment validation failed: " ++ joinSep ", " issues)

/-- The options handed to the JWT module. -/
structure JwtOptions where
  secret : String
  expiresIn : String
  deriving DecidableEq

/-- The `JwtModule.registerAsync` factory (`src/auth/auth.module.ts` lines
14-22): reads the secret and TTL from configuration with JS `||` fallbacks
and imposes no length requirement of its own. -/
def jwtFactory (get : String → Option String) : JwtOptions :=
  { secret :=
      match get "JWT_SECRET" with
      | some s => if s = "" then "your-super-secret-jwt-key-change-this-in-production" else s
      | none => "your-super-secret-jwt-key-change-this-in-production",
    expiresIn :=
      match get "JWT_EXPIRES_IN" with
      | some e => if e = "" then "7d" else e
      | none => "7d" }

/-- A rule pipeline in the spec's sense (§4.1): the first failing check's
message surfaces; passing every check yields `valid`. -/
def firstFailing : List ((String → Bool) × String) → String → ValidationResult
  | [], _ => { isValid := true }
  | c :: rest, p =>
    if c.1 p then firstFailing rest p
    else { isValid := false, message := some c.2 }

/-- The four password checks in the order the spec fixes (§4.1). -/
def passwordChecks : List ((String → Bool) × String) :=
  [(fun p => decide (8 ≤ p.data.length), "Password must be at least 8 characters long"),
   (fun p => anyChar isAsciiUpper p.data, "Password must contain at least one uppercase letter"),
   (fun p => anyChar isAsciiLower p.data, "Password must contain at least one lowercase letter"),
   (fun p => anyChar isAsciiDigit p.data, "Password must contain at least one number")]

/-- A coerced number that is a finite integer of value at least 1 (the
spec's page/identifier criterion on the numeric side). -/
def isPosIntNum (n : JSNumber) : Bool :=
  match n with
  | .finite q => decide (q.den = 1) && decide (1 ≤ q)
  | _ => false

/-- A coerced number that is a finite integer between 1 and 1000 (the
spec's limit criterion on the numeric side). -/
def isLimitNum (n : JSNumber) : Bool :=
  match n with
  | .finite q => decide (q.den = 1) && decide (1 ≤ q) && decide (q ≤ 1000)
  | _ => false

/-- The spec's identifier/page criterion: the string coerces to a positive
integer. -/
def specCoercesToPosInt (s : String) : Bool := isPosIntNum (jsToNumber s)

/-- The spec's limit criterion: the string coerces to an integer in the
closed range from 1 to 1000. -/
def specCoercesToLimit (s : String) : Bool := isLimitNum (jsToNumber s)

/-- `idSchema` from `users/users.schemas.ts`
(`z.coerce.number().int().positive()`): accepts exactly the strings that
coerce to a positive integer. -/
def idSchemaAccepts (s : String) : Bool :=
  match jsToNumber s with
  | .finite q => decide (q.den = 1) && decide (0 < q)
  | _ => false

/-- A configuration whose `JWT_SECRET` is absent or shorter than 32
characters. -/
def secretTooShort (c : EnvConfig) : Bool :=
  match c.JWT_SECRET with
  | none => true
  | some s => decide (s.data.length < 32)

/-- A concrete configuration passing environment validation. -/
def goodEnvConfig : EnvConfig :=
  { DATABASE_URL := some "db", JWT_SECRET := some "0123456789abcdef0123456789abcdef",
    JWT_EXPIRES_IN := none, NODE_ENV := none }

/-- A concrete configuration whose secret has fewer than 32 characters. -/
def shortSecretConfig : EnvConfig :=
  { DATABASE_URL := some "db", JWT_SECRET := some "short",
    JWT_EXPIRES_IN := none, NODE_ENV := none }

/-- A concrete decoded claim set used to instantiate the guard theorems. -/
def demoPayload : JwtPayload := { sub := 1, email := "test@example.com", role := "STUDENT" }

/-- A concrete verifier accepting exactly the token "bearer x". -/
def demoVerify : String → Option JwtPayload :=
  fun t => if t = "bearer x" then some demoPayload else none

/-- A concrete verifier accepting every token. -/
def demoVerifyAll : String → Option JwtPayload := fun _ => some demoPayload

theorem stringAppendAssoc (a b c : String) : a ++ b ++ c = a ++ (b ++ c) := by
  rcases a with ⟨as⟩
  rcases b with ⟨bs⟩
  rcases c with ⟨cs⟩
  show String.mk (as ++ bs ++ cs) = String.mk (as ++ (bs ++ cs))
  rw [List.append_assoc]

theorem validateId_valid_ne_empty (id : String) (h : (validateId id).isValid = true) :
    id ≠ "" := by
  intro he
  rw [he] at h
  have hfalse : (validateId "").isValid = false := by rfl
  rw [hfalse] at h
  exact absurd h (by decide)

/-- C1: the claim says the not-found message is generic and never echoes the
requested identifier (so any two absent identifiers give the same message);
in fact both lookup and delete throw `UserNotFoundException(id)`, whose
message interpolates the identifier, so the absent identifiers "1" and "2"
produce different caller-visible messages. -/
theorem C1_counterexample :
    findOne [] "1" = .error (.notFound "User with ID 1 not found") ∧
    deleteUser [] "2" = .error (.notFound "User with ID 2 not found") ∧
    userNotFoundMessage (some "1") ≠ userNotFoundMessage (some "2") := by
  exact ⟨by rfl, by rfl, by decide⟩

/-- C1 (amended): for every store and identifier that passes id validation
but is absent from the store, lookup and delete both fail with the not-found
message "User with ID <id> not found" — the same message for both
operations on the same identifier, but one that embeds the requested
identifier rather than a generic text. -/
theorem C1_notFound_message_amended (store : List UserRec) (id : String)
    (hid : (validateId id).isValid = true)
    (habsent : findOneById store (jsToNumber id) = none) :
    findOne store id = .error (.notFound ("User with ID " ++ id ++ " not found")) ∧
    deleteUser store id = .error (.notFound ("User with ID " ++ id ++ " not found")) := by
  have hne : id ≠ "" := validateId_valid_ne_empty id hid
  have hmsg : userNotFoundMessage (some id) = "User with ID " ++ id ++ " not found" := by
    show "User" ++ (if id = "" then "" else " with ID " ++ id) ++ " not found" = _
    rw [if_neg hne, ← stringAppendAssoc "User" " with ID " id]
    rfl
  constructor
  · simp only [findOne, hid, Bool.not_true, Bool.false_eq_true, if_false, habsent, hmsg]
  · simp only [deleteUser, hid, Bool.not_true, Bool.false_eq_true, if_false, habsent, hmsg]

theorem C1_notFound_message_amended_witness :
    findOne [] "7" = .error (.notFound "User with ID 7 not found") ∧
    deleteUser [] "7" = .error (.notFound "User with ID 7 not found") :=
  C1_notFound_message_amended [] "7" (by decide) (by rfl)

/-- C2: the claim says unrecognized (non-HttpException) failures surface with
a generic message, detail going only to the logger.  The filter does log the
message and stack, and keeps the 500 status and "Internal Server Error"
error label — but it places the exception's own `message` into the
caller-visible body, contradicting the claim (and the repository's own
`doc/security.md`, which promises generic 500 messages).  Evaluated here at
a representative internal failure. -/
theorem C2_filter_echoes_internal_detail :
    (allExceptionsFilterCatch
        (.errorObj "connect ECONNREFUSED 127.0.0.1:5432" "stack frames") "/users").1.message =
      "connect ECONNREFUSED 127.0.0.1:5432" ∧
    (allExceptionsFilterCatch
        (.errorObj "connect ECONNREFUSED 127.0.0.1:5432" "stack frames") "/users").1.message ≠
      "Internal Server Error" ∧
    (allExceptionsFilterCatch
        (.errorObj "connect ECONNREFUSED 127.0.0.1:5432" "stack frames") "/users").2 =
      [{ text := "Exception: connect ECONNREFUSED 127.0.0.1:5432", stack := some "stack frames" }] ∧
    (allExceptionsFilterCatch JsException.nonError "/users").1.message =
      "Internal Server Error" := by
  exact ⟨by rfl, by decide, by rfl, by rfl⟩

/-- C3: the claim says a field is missing exactly when its value is
`undefined`, `null`, or the empty string; the implementation tests JS
falsiness (`!value`), so the number `0` also counts as missing — on the
input having one field bound to `0` the implementation reports it missing
while the spec's criterion accepts the input. -/
theorem C3_counterexample :
    validateRequiredFields [("age", .num (.finite 0))] =
      { isValid := false, message := some "age is required" } ∧
    specMissing (.num (.finite 0)) = false ∧
    specValidateRequiredFields [("age", .num (.finite 0))] = { isValid := true } := by
  exact ⟨by decide, by decide, by decide⟩

/-- C3 (amended): a field counts as missing exactly when its value is falsy
in the JS sense (`undefined`, `null`, the empty string, the number 0, `NaN`,
or `false`); a single missing field yields "<name> is required", several
missing fields are joined with "and" followed by "are required" in input
order — in particular the mapping with `email` bound to "" and `password`
bound to `null` yields exactly "email and password are required". -/
theorem C3_requiredFields_amended (fields : List (String × JsValue)) :
    ((validateRequiredFields fields).isValid = true ↔ ∀ kv ∈ fields, isTruthy kv.2 = true) ∧
    validateRequiredFields [("email", .str ""), ("password", .jsNull)] =
      { isValid := false, message := some "email and password are required" } ∧
    validateRequiredFields [("email", .str "a@b.co"), ("password", .str "")] =
      { isValid := false, message := some "password is required" } ∧
    validateRequiredFields [("email", .str "a@b.co"), ("password", .str "pw")] =
      { isValid := true } := by
  refine ⟨?_, by decide, by decide, by decide⟩
  simp only [validateRequiredFields]
  by_cases h : fields.filter (fun kv => !(isTruthy kv.2)) = []
  · rw [h]
    have hnot : ¬((List.map Prod.fst (List.nil : List (String × JsValue))).length > 0) := by
      decide
    rw [if_neg hnot]
    simp only [List.filter_eq_nil_iff] at h
    constructor
    · intro _ kv hm
      have hk := h kv hm
      cases hb : isTruthy kv.2
      · exact absurd (by rw [hb]; rfl) hk
      · rfl
    · intro _
      rfl
  · have hlen : 0 < ((fields.filter (fun kv => !(isTruthy kv.2))).map Prod.fst).length := by
      rw [List.length_map]
      exact List.length_pos.mpr h
    rw [if_pos hlen]
    constructor
    · intro hfalse
      exact Bool.noConfusion (show false = true from hfalse)
    · intro hall
      exfalso
      apply h
      rw [List.filter_eq_nil_iff]
      intro kv hm
      rw [hall kv hm]
      decide

/-- C7: the claim describes the guard as the spec's state machine, under
which a present header whose stripped value is empty is rejected with
"Token is missing"; the implementation tests JS falsiness of the raw header
(`!authHeader`), so a present empty-string header is instead rejected with
"Authorization header is missing". -/
theorem C7_counterexample :
    canActivate demoVerifyAll (some "") = .rejected "Authorization header is missing" ∧
    specGuard demoVerifyAll (some "") = .rejected "Token is missing" ∧
    GuardResult.rejected "Authorization header is missing" ≠
      GuardResult.rejected "Token is missing" := by
  exact ⟨by rfl, by rfl, by decide⟩

/-- C7 (amended): the guard's decision equals the spec's state machine on
every input except a present empty-string header, which the implementation
treats like an absent header ("Authorization header is missing" instead of
the machine's "Token is missing"): absent header rejects as missing header;
otherwise the optional "Bearer " prefix is stripped; an empty stripped value
rejects as missing token; a token failing verification (for any reason)
rejects as invalid-or-expired; a verifying token yields `authenticated` with
the decoded claims attached. -/
theorem C7_guard_amended (verify : String → Option JwtPayload) (h : Option String) :
    canActivate verify h =
      (match h with
       | none => .rejected "Authorization header is missing"
       | some hv =>
         if hv = "" then .rejected "Authorization header is missing"
         else specGuard verify (some hv)) := by
  rcases h with _ | hv
  · rfl
  · by_cases hne : hv = ""
    · simp [canActivate, hne]
    · simp only [canActivate, specGuard, if_neg hne]

/-- C10: the claim quantifies over every header value lacking the exact
"Bearer " prefix and asserts the whole value is passed to verification; the
empty string lacks the prefix, yet the guard rejects it up front without
consulting the verifier — an all-accepting verifier still yields rejection. -/
theorem C10_counterexample :
    startsWithBearer "" = false ∧
    demoVerifyAll "" = some demoPayload ∧
    canActivate demoVerifyAll (some "") = .rejected "Authorization header is missing" ∧
    canActivate demoVerifyAll (some "") ≠ .authenticated demoPayload := by
  exact ⟨by rfl, by rfl, by rfl, by decide⟩

/-- C10 (amended): for every nonempty header value that does not begin with
the exact seven characters "Bearer " (capital B, single trailing space) —
e.g. "bearer x", "Bearer" without the space, or a bare token — the entire
header value is used as the token and handed to verification rather than
being rejected as malformed; the empty header value is instead rejected
before verification. -/
theorem C10_stripping_amended (verify : String → Option JwtPayload) (h : String)
    (hne : h ≠ "") (hpre : startsWithBearer h = false) :
    stripBearer h = h ∧
    canActivate verify (some h) =
      (match verify h with
       | some payload => .authenticated payload
       | none => .rejected "Invalid or expired token") := by
  have hs : stripBearer h = h := by
    simp only [stripBearer, hpre, Bool.false_eq_true, if_false]
  refine ⟨hs, ?_⟩
  simp only [canActivate, if_neg hne, hs]

theorem C10_stripping_amended_witness :
    stripBearer "bearer x" = "bearer x" ∧
    canActivate demoVerify (some "bearer x") = .authenticated demoPayload := by
  have h := C10_stripping_amended demoVerify "bearer x" (by decide) (by rfl)
  refine ⟨h.1, ?_⟩
  rw [h.2]
  rfl

theorem validateRole_isValid_iff (r : String) :
    (validateRole r).isValid = true ↔ jsToUpperCase r ∈ validRoles := by
  by_cases hc : validRoles.contains (jsToUpperCase r)
  · simp only [validateRole, hc, Bool.not_true, Bool.false_eq_true, if_false]
    simp only [true_iff]
    exact List.elem_iff.mp hc
  · have hc' : validRoles.contains (jsToUpperCase r) = false := by
      cases hx : validRoles.contains (jsToUpperCase r)
      · rfl
      · exact absurd hx hc
    simp only [validateRole, hc', Bool.not_false, if_true]
    constructor
    · intro hfalse
      exact Bool.noConfusion (show false = true from hfalse)
    · intro hmem
      exact absurd (List.elem_iff.mpr hmem) hc

theorem registerUser_role_mem (hashFn : String → String) (newId : ℤ)
    (body : RegisterBody) (u : UserView)
    (hok : registerUser hashFn newId body = .ok u) : u.role ∈ validRoles := by
  simp only [registerUser] at hok
  split at hok
  · exact Except.noConfusion hok
  · split at hok
    · exact Except.noConfusion hok
    · split at hok
      · exact Except.noConfusion hok
      · split at hok
        · rename_i r heq
          split at hok
          · exact Except.noConfusion hok
          · rename_i hcond
            injection hok with hu
            subst hu
            by_cases hre : r = ""
            · subst hre
              exact (by decide : ("GUEST" : String) ∈ validRoles)
            · have hbe : (r == "") = false := beq_eq_false_iff_ne.mpr hre
              have hval : (validateRole r).isValid = true := by
                rcases Bool.eq_false_or_eq_true (validateRole r).isValid with h | h
                · exact h
                · exfalso
                  apply hcond
                  rw [hbe, h]
                  rfl
              have hmem := (validateRole_isValid_iff r).mp hval
              simp only [removePassword, usersServiceCreate, if_neg hre]
              exact hmem
        · injection hok with hu
          subst hu
          exact (by decide : ("GUEST" : String) ∈ validRoles)

/-- C8: role membership is tested case-insensitively against the closed
enumeration (the input is upper-cased before the comparison) and a
non-member fails with the message listing all allowed values; and every
successful registration places an upper-case value into canonical storage —
the stored role is always a member of the closed enumeration, whose members
are all fixed under upper-casing, with GUEST as the default when no truthy
role is supplied. -/
theorem C8_role_policy (r : String) :
    ((validateRole r).isValid = true ↔ jsToUpperCase r ∈ validRoles) ∧
    ((validateRole r).isValid = false →
      (validateRole r).message =
        some "Invalid role. Must be one of: ADMIN, STUDENT, TEACHER, STAFF, GUEST") ∧
    (∀ (hashFn : String → String) (newId : ℤ) (body : RegisterBody) (u : UserView),
      registerUser hashFn newId body = .ok u → u.role ∈ validRoles) ∧
    (∀ v ∈ validRoles, jsToUpperCase v = v) ∧
    (∀ (hashFn : String → String) (newId : ℤ) (email : String) (name : Option String)
        (password : String),
      (usersServiceCreate hashFn newId email name password none).role = "GUEST") := by
  refine ⟨validateRole_isValid_iff r, ?_,
    fun hashFn newId body u hok => registerUser_role_mem hashFn newId body u hok,
    by decide, fun _ _ _ _ _ => rfl⟩
  by_cases hc : validRoles.contains (jsToUpperCase r)
  · simp only [validateRole, hc, Bool.not_true, Bool.false_eq_true, if_false]
    intro hfalse
    exact Bool.noConfusion (show true = false from hfalse)
  · have hc' : validRoles.contains (jsToUpperCase r) = false := by
      cases hx : validRoles.contains (jsToUpperCase r)
      · rfl
      · exact absurd hx hc
    simp only [validateRole, hc', Bool.not_false, if_true]
    intro _
    rfl

theorem C8_role_policy_witness :
    (validateRole "USER").message =
      some "Invalid role. Must be one of: ADMIN, STUDENT, TEACHER, STAFF, GUEST" ∧
    registerUser (fun s => "hashed " ++ s) 1
        { email := "a@b.co", name := none, password := "Password1", role := some "guest" } =
      .ok { id := 1, email := "a@b.co", name := none, role := "GUEST" } ∧
    (UserView.mk 1 "a@b.co" none "GUEST").role ∈ validRoles := by
  refine ⟨(C8_role_policy "USER").2.1 (by decide), by rfl, ?_⟩
  exact (C8_role_policy "guest").2.2.1 (fun s => "hashed " ++ s) 1
    { email := "a@b.co", name := none, password := "Password1", role := some "guest" }
    (UserView.mk 1 "a@b.co" none "GUEST") (by rfl)

/-- C9: the token-signing secret must be at least 32 characters, and the
only place this is enforced is the startup environment validation, which
aborts startup (throws) for a shorter or absent `JWT_SECRET`; the JWT module
factory consulted on each issuance/verification applies no length check of
its own (it accepts a secret of any length, with a fallback only for an
absent or empty value). -/
theorem C9_secret_policy :
    (∀ (c : EnvConfig) (e : Environment),
        envValidate c = .ok e → 32 ≤ e.JWT_SECRET.data.length) ∧
    (∀ c : EnvConfig, secretTooShort c = true → ∃ msg, envValidate c = .error msg) ∧
    (∀ secret : String,
      (jwtFactory (fun k => if k = "JWT_SECRET" then some secret else none)).secret =
        (if secret = "" then "your-super-secret-jwt-key-change-this-in-production"
         else secret)) := by
  refine ⟨?_, ?_, ?_⟩
  · intro c e hok
    unfold envValidate at hok
    rcases hi : envIssues c with _ | ⟨i, is⟩
    · rw [hi] at hok
      simp only [Except.ok.injEq] at hok
      subst hok
      show 32 ≤ (c.JWT_SECRET.getD "").data.length
      unfold envIssues at hi
      rcases hs : c.JWT_SECRET with _ | s
      · rw [hs] at hi
        simp at hi
      · rw [hs] at hi
        by_cases hlen : s.data.length < 32
        · simp at hi
          exact absurd hi.2.1 (Nat.not_le_of_lt hlen)
        · simp only [Option.getD_some]
          exact Nat.le_of_not_lt hlen
    · rw [hi] at hok
      exact Except.noConfusion hok
  · intro c hshort
    have hne : envIssues c ≠ [] := by
      unfold envIssues
      unfold secretTooShort at hshort
      rcases hs : c.JWT_SECRET with _ | s
      · intro hcontra
        simp at hcontra
      · rw [hs] at hshort
        simp only [decide_eq_true_eq] at hshort
        intro hcontra
        simp at hcontra
        exact absurd hcontra.2.1 (Nat.not_le_of_lt hshort)
    rcases he : envIssues c with _ | ⟨i, is⟩
    · exact absurd he hne
    · exact ⟨_, by unfold envValidate; rw [he]⟩
  · intro secret
    rfl

theorem C9_secret_policy_witness :
    32 ≤ (Environment.mk "db" "0123456789abcdef0123456789abcdef" "7d"
      "development").JWT_SECRET.data.length ∧
    (∃ msg, envValidate shortSecretConfig = .error msg) ∧
    (jwtFactory (fun k => if k = "JWT_SECRET" then some "short" else none)).secret =
      "short" := by
  refine ⟨?_, ?_, ?_⟩
  · exact C9_secret_policy.1 goodEnvConfig _ (by rfl)
  · exact C9_secret_policy.2.1 shortSecretConfig (by decide)
  · have h := C9_secret_policy.2.2 "short"
    rw [h]
    rfl

theorem decide_lt_eq_not_le (a b : ℚ) : decide (a < b) = !(decide (b ≤ a)) := by
  by_cases h : a < b
  · rw [decide_eq_true h, decide_eq_false (not_le.mpr h)]
    rfl
  · rw [decide_eq_false h, decide_eq_true (not_lt.mp h)]
    rfl

theorem pageCond (n : JSNumber) :
    (n.isNaNb || n.ltb (.finite 1) || !n.isIntegerb) = !(isPosIntNum n) := by
  rcases n with _ | _ | _ | q
  · rfl
  · rfl
  · rfl
  · show (false || decide (q < 1) || !(decide (q.den = 1))) =
      !(decide (q.den = 1) && decide (1 ≤ q))
    rw [Bool.false_or, decide_lt_eq_not_le, ← Bool.not_and, Bool.and_comm]

theorem limitCond (n : JSNumber) :
    (n.isNaNb || n.ltb (.finite 1) || (JSNumber.finite 1000).ltb n || !n.isIntegerb) =
      !(isLimitNum n) := by
  rcases n with _ | _ | _ | q
  · rfl
  · rfl
  · rfl
  · show (false || decide (q < 1) || decide ((1000 : ℚ) < q) || !(decide (q.den = 1))) =
      !(decide (q.den = 1) && decide (1 ≤ q) && decide (q ≤ 1000))
    by_cases h1 : (1 : ℚ) ≤ q <;> by_cases h2 : q ≤ 1000 <;> by_cases h3 : q.den = 1
    all_goals first
      | simp [h1, h2, h3, not_lt.mpr h1, not_lt.mpr h2]
      | simp [h1, h2, h3, not_lt.mpr h1, not_le.mp h2]
      | simp [h1, h2, h3, not_le.mp h1, not_lt.mpr h2]
      | simp [h1, h2, h3, not_le.mp h1, not_le.mp h2]

/-- C4: the claim says the identifier validator accepts exactly strings
coercing to a positive integer, rejecting any numeral with a fractional
part such as "3.5"; `validateId` only checks `NaN` and `< 1` (it has no
integrality check, unlike `validatePagination`), so "3.5" — which coerces
to the non-integral 7/2 — is accepted. -/
theorem C4_counterexample :
    validateId "3.5" = { isValid := true } ∧
    jsToNumber "3.5" = .finite (mkRat 7 2) ∧
    (mkRat 7 2).den ≠ 1 ∧
    specCoercesToPosInt "3.5" = false ∧
    idSchemaAccepts "3.5" = false := by
  exact ⟨by decide, by decide, by decide, by decide, by decide⟩

/-- C4 (amended): `validateId` accepts exactly the strings whose `Number`
coercion is a value at least 1 — fractional values such as "3.5" included
(only the Zod `idSchema` variant adds the integrality requirement); strings
with non-numeric characters, "0", and negative numerals are rejected. -/
theorem C4_validateId_amended (s : String) :
    ((validateId s).isValid = true ↔
      ((∃ q : ℚ, jsToNumber s = .finite q ∧ 1 ≤ q) ∨ jsToNumber s = .posInf)) ∧
    validateId "0" = { isValid := false, message := some "Invalid user ID format" } ∧
    validateId "-5" = { isValid := false, message := some "Invalid user ID format" } ∧
    validateId "abc" = { isValid := false, message := some "Invalid user ID format" } ∧
    validateId "3.5" = { isValid := true } ∧
    validateId "42" = { isValid := true } := by
  refine ⟨?_, by decide, by decide, by decide, by decide, by decide⟩
  simp only [validateId]
  rcases hn : jsToNumber s with _ | _ | _ | q
  · simp [JSNumber.isNaNb, JSNumber.ltb]
  · simp [JSNumber.isNaNb, JSNumber.ltb]
  · simp [JSNumber.isNaNb, JSNumber.ltb]
  · by_cases hq : q < 1
    · simp [JSNumber.isNaNb, JSNumber.ltb, hq, not_le.mpr hq]
    · simp [JSNumber.isNaNb, JSNumber.ltb, hq, not_lt.mp hq]

/-- C5: the pagination validator checks the page first and short-circuits
(its message wins regardless of the limit); the page must coerce to a
positive integer and the limit to an integer in the closed range from 1 to
1000, with the three quoted concrete outcomes. -/
theorem C5_validatePagination (page limit : String) :
    (validatePagination page limit =
      (if specCoercesToPosInt page then
        (if specCoercesToLimit limit then { isValid := true }
         else { isValid := false,
                message := some "Limit must be an integer between 1 and 1000" })
       else { isValid := false, message := some "Page must be a positive integer" })) ∧
    validatePagination "0" "10" =
      { isValid := false, message := some "Page must be a positive integer" } ∧
    validatePagination "1" "1001" =
      { isValid := false, message := some "Limit must be an integer between 1 and 1000" } ∧
    validatePagination "1" "1000" = { isValid := true } := by
  refine ⟨?_, by decide, by decide, by decide⟩
  simp only [validatePagination, specCoercesToPosInt, specCoercesToLimit]
  rw [pageCond, limitCond]
  rcases Bool.eq_false_or_eq_true (isPosIntNum (jsToNumber page)) with hp | hp <;>
    rcases Bool.eq_false_or_eq_true (isLimitNum (jsToNumber limit)) with hl | hl <;>
      simp [hp, hl]

/-- C6: the password validator applies its four checks in the fixed order
length, uppercase, lowercase, digit — it coincides with the first-failing
pipeline over those checks — and the four quoted concrete outcomes hold. -/
theorem C6_passwordComplexity (p : String) :
    validatePasswordComplexity p = firstFailing passwordChecks p ∧
    validatePasswordComplexity "password" =
      { isValid := false,
        message := some "Password must contain at least one uppercase letter" } ∧
    validatePasswordComplexity "PASSWORD1" =
      { isValid := false,
        message := some "Password must contain at least one lowercase letter" } ∧
    validatePasswordComplexity "Password" =
      { isValid := false, message := some "Password must contain at least one number" } ∧
    validatePasswordComplexity "Password1" = { isValid := true } := by
  refine ⟨?_, by decide, by decide, by decide, by decide⟩
  simp only [validatePasswordComplexity, passwordChecks, firstFailing]
  by_cases h1 : p.data.length < 8
  · have e1 : decide (8 ≤ p.data.length) = false := decide_eq_false (Nat.not_le.mpr h1)
    rw [if_pos h1, e1]
    rfl
  · have e1 : decide (8 ≤ p.data.length) = true := decide_eq_true (Nat.le_of_not_lt h1)
    rw [if_neg h1, e1]
    rcases Bool.eq_false_or_eq_true (anyChar isAsciiUpper p.data) with h2 | h2
    · rw [h2]
      rcases Bool.eq_false_or_eq_true (anyChar isAsciiLower p.data) with h3 | h3
      · rw [h3]
        rcases Bool.eq_false_or_eq_true (anyChar isAsciiDigit p.data) with h4 | h4
        · rw [h4]
          rfl
        · rw [h4]
          rfl
      · rw [h3]
        rfl
    · rw [h2]
      rfl
